import Mathlib

/-! Verification of the portable backend (`src/generic.rs`) of the
`event-object` crate: a Win32-style event object with manual/auto reset
semantics and group waits (`wait_for_any*`, `wait_for_all*`).

Modelling conventions (shallow embedding):
* The `bool` behind each event's `Mutex<bool>` is the field `signaled`.
* The `RwLock<OrderMap<MutexKey, CondvarWithId>>` registration table is an
  insertion-ordered association list keyed by the waiter identity; the raw
  address of the waiter's stack-local `Mutex<usize>` (`MutexKey.mutex`) is
  abstracted to a `Nat` key.  `CondvarWithId.condvar` points into the same
  waiter descriptor, so an entry keeps only `id` and `kind`.
  `OrderMap::remove` is modelled as order-preserving removal; no claim
  observes iteration order after a removal, so the difference from a
  swap-removal is unobservable here.
* The waiter counters (the `usize` behind each waiter's local mutex) are an
  explicit state component `Nat → Nat` indexed by waiter identity.
* Blocking on a condition variable is modelled by oracle parameters that
  describe what the thread observes when it wakes up again (`wakeSignaled`,
  `wakeTimedOut`, `wakeCounter`, `eventsAtWake`).  A `panic!` and a failed
  `assert!` are modelled as `Except.error` / `Option.none`.
* `Instant` and `Duration` are modelled as milliseconds (`Nat`);
  `chrono::Duration::from_std` fails above `i64::MAX` milliseconds.
-/

/-- The `WaitFor` enum from `src/generic.rs` (registration kind). -/
inductive WaitFor
  | Any
  | All
deriving DecidableEq

/-- One registration-table entry: the payload of `CondvarWithId` minus the
condvar pointer, which only identifies the same waiter as the key. -/
structure RegEntry where
  id : Nat
  kind : WaitFor
deriving DecidableEq

/-- The `Event` struct: `mutex: Mutex<bool>` becomes `signaled`, and
`map: RwLock<OrderMap<MutexKey, CondvarWithId>>` becomes `registrations`,
an insertion-ordered association list keyed by waiter identity. -/
structure Event where
  signaled : Bool
  auto_reset : Bool
  registrations : List (Nat × RegEntry)
deriving DecidableEq

/-- The public `WaitTimeoutResult` wrapper. -/
structure WaitTimeoutResult where
  timed_out : Bool
deriving DecidableEq

/-- Observable wake-ups performed by a call: whether the event's own condvar
was notified (`self.condvar.notify_all()`), and which registered waiters'
condvars were notified, in registration order. -/
structure WakeLog where
  localNotified : Bool
  wokenWaiters : List Nat
deriving DecidableEq

/-- `std::usize::MAX`, the reserved sentinel of the Any-mode counter. -/
def USIZE_MAX : Nat := 2 ^ 64 - 1

/-- Largest duration (in ms) accepted by `chrono::Duration::from_std`:
`i64::MAX` milliseconds. -/
def MAX_CHRONO_MS : Nat := 2 ^ 63 - 1

/-- Lookup in the registration table (`OrderMap` lookup by key). -/
def lookupReg (k : Nat) : List (Nat × RegEntry) → Option RegEntry
  | [] => none
  | p :: rest => if p.1 = k then some p.2 else lookupReg k rest

/-- `OrderMap::insert`: replace in place when the key is present, otherwise
append at the end (insertion order). -/
def mapInsert (k : Nat) (v : RegEntry) : List (Nat × RegEntry) → List (Nat × RegEntry)
  | [] => [(k, v)]
  | p :: rest => if p.1 = k then (k, v) :: rest else p :: mapInsert k v rest

/-- `OrderMap::remove`: drop the entry with the given key. -/
def mapRemove (k : Nat) : List (Nat × RegEntry) → List (Nat × RegEntry)
  | [] => []
  | p :: rest => if p.1 = k then mapRemove k rest else p :: mapRemove k rest

/-- `event.map.write().insert(key, value)` on one event. -/
def insertReg (e : Event) (k : Nat) (v : RegEntry) : Event :=
  { e with registrations := mapInsert k v e.registrations }

/-- `event.map.write().remove(&key)` on one event. -/
def removeReg (e : Event) (k : Nat) : Event :=
  { e with registrations := mapRemove k e.registrations }

/-- `Event::new(initial_signaled, auto_reset)` (`src/generic.rs:64`):
always `Ok`, with the given initial state and an empty registration table. -/
def Event.new (initial_signaled auto_reset : Bool) : Except Unit Event :=
  .ok { signaled := initial_signaled, auto_reset := auto_reset, registrations := [] }

/-- The trailing `if self.auto_reset { *guard = false; }` of `wait` and
`wait_until` (`src/generic.rs:79` and `src/generic.rs:104`). -/
def Event.applyReset (e : Event) : Event :=
  if e.auto_reset then { e with signaled := false } else e

/-- `Event::wait` (`src/generic.rs:73`).  If signaled, it returns without
blocking; otherwise it blocks on the event's condvar, and `wakeSignaled` is
the value of the guarded bool observed after waking.  The `assert!(*guard
== true)` failure is `none`.  The second component records whether the call
blocked. -/
def Event.wait (e : Event) (wakeSignaled : Bool) : Option (Event × Bool) :=
  if e.signaled then
    some (e.applyReset, false)
  else if wakeSignaled then
    some (Event.applyReset { e with signaled := true }, true)
  else
    none

/-- `Event::wait_until` (`src/generic.rs:93`).  Panics (`.error`) when the
deadline is already in the past; otherwise as `wait` but with a deadline:
`wakeTimedOut` is the `WaitTimeoutResult` of the condvar wait, and the
`assert!(*guard == true || ret_value.timed_out())` failure is `.error`.
Returns the new event state, the timed-out flag and whether it blocked. -/
def Event.wait_until (e : Event) (now deadline : Nat)
    (wakeSignaled wakeTimedOut : Bool) :
    Except String (Event × WaitTimeoutResult × Bool) :=
  if deadline < now then
    .error "Cannot wait for a previous time."
  else if e.signaled then
    .ok (e.applyReset, ⟨false⟩, false)
  else if wakeSignaled || wakeTimedOut then
    .ok (Event.applyReset { e with signaled := wakeSignaled }, ⟨wakeTimedOut⟩, true)
  else
    .error "assertion failed: *guard == true || ret_value.timed_out()"

/-- `Event::wait_for` (`src/generic.rs:84`).  Panics (`.error`) when the
duration exceeds the chrono-representable range, then delegates to
`wait_until` at `now + timeout`.  (The source's `num_milliseconds() < 0`
check is dead code: a `std::time::Duration` is never negative.) -/
def Event.wait_for (e : Event) (timeout now : Nat)
    (wakeSignaled wakeTimedOut : Bool) :
    Except String (Event × WaitTimeoutResult × Bool) :=
  if MAX_CHRONO_MS < timeout then
    .error "Time period too large."
  else
    e.wait_until now (now + timeout) wakeSignaled wakeTimedOut

/-- The registration walk of `Event::notify` (`src/generic.rs:116`): for
each entry in insertion order, under that waiter's own lock, overwrite the
counter with `value.id` for Any-mode entries and add `value.id` for
All-mode entries. -/
def notifyCounters : List (Nat × RegEntry) → (Nat → Nat) → (Nat → Nat)
  | [], cs => cs
  | p :: rest, cs =>
      notifyCounters rest (fun x =>
        if x = p.1 then
          match p.2.kind with
          | .Any => p.2.id
          | .All => cs p.1 + p.2.id
        else cs x)

/-- `Event::notify` (`src/generic.rs:110`): set the state to signaled,
notify the event's own condvar, then walk the registration table updating
each registered waiter's counter and notifying its condvar. -/
def Event.notify (e : Event) (cs : Nat → Nat) :
    Event × (Nat → Nat) × WakeLog :=
  ({ e with signaled := true },
   notifyCounters e.registrations cs,
   ⟨true, e.registrations.map Prod.fst⟩)

/-- `Event::unnotify` (`src/generic.rs:129`): only `*guard = false`.  It is
lifted to the same state signature as `notify` so that its frame (counters
untouched, nobody woken) is expressible. -/
def Event.unnotify (e : Event) (cs : Nat → Nat) :
    Event × (Nat → Nat) × WakeLog :=
  ({ e with signaled := false }, cs, ⟨false, []⟩)

/-- The registration scan of `wait_for_any_until_impl`
(`src/generic.rs:173`): walk the slice in order with loop index `id`;
`done` is the already-scanned prefix (each element carrying the
registration this call inserted).  On the first already-signaled event,
remove the registrations inserted for the scanned prefix and stop with
that index; otherwise insert an Any-mode registration with `id` and
continue.  Returns the slice state and the found index, if any. -/
def anyScanLoop (key : Nat) (id : Nat) (done : List Event) :
    List Event → List Event × Option Nat
  | [] => (done, none)
  | e :: rest =>
    if e.signaled then
      (done.map (fun d => removeReg d key) ++ e :: rest, some id)
    else
      anyScanLoop key (id + 1) (done ++ [insertReg e key ⟨id, .Any⟩]) rest

/-- The scan of `wait_for_any_until_impl`, started at index 0 with an empty
prefix. -/
def anyScan (key : Nat) (events : List Event) : List Event × Option Nat :=
  anyScanLoop key 0 [] events

/-- The final deregistration loop of both group waits
(`src/generic.rs:209` and `src/generic.rs:289`): remove this waiter's key
from every event of the slice. -/
def deregisterAll (key : Nat) (events : List Event) : List Event :=
  events.map (fun e => removeReg e key)

/-- `wait_for_any_until_impl` (`src/generic.rs:159`).  `key` is the waiter
identity (address of the stack-local counter mutex, initialised to
`USIZE_MAX`).  If the scan finds an already-signaled event it returns that
index at once (the scan already removed the inserted registrations).
Otherwise the call blocks; `wakeCounter` is the counter value and
`wakeTimedOut` the timeout flag when the wait loop exits, `eventsAtWake`
the slice state at that point (other threads may have run `notify` /
`unnotify` meanwhile); then every event is deregistered.  The last
component records whether the call blocked. -/
def wait_for_any_until_impl (key : Nat) (events : List Event)
    (with_timeout wakeTimedOut : Bool) (wakeCounter : Nat)
    (eventsAtWake : List Event) :
    Except WaitTimeoutResult Nat × List Event × Bool :=
  match anyScan key events with
  | (scanned, some id) => (.ok id, scanned, false)
  | (_, none) =>
    let tout := if with_timeout then wakeTimedOut else false
    let evs := deregisterAll key eventsAtWake
    if tout then (.error ⟨true⟩, evs, true) else (.ok wakeCounter, evs, true)

/-- `wait_for_any_with` (`src/generic.rs:135`): panic (`.error`) when the
duration exceeds the chrono-representable range, then delegate. -/
def wait_for_any_with (key : Nat) (events : List Event) (timeout now : Nat)
    (wakeTimedOut : Bool) (wakeCounter : Nat) (eventsAtWake : List Event) :
    Except String (Except WaitTimeoutResult Nat × List Event × Bool) :=
  if MAX_CHRONO_MS < timeout then
    .error "Time period too large."
  else
    .ok (wait_for_any_until_impl key events true wakeTimedOut wakeCounter eventsAtWake)

/-- `wait_for_any_until` (`src/generic.rs:146`): panic (`.error`) when the
deadline is already in the past, then delegate. -/
def wait_for_any_until (key : Nat) (events : List Event) (deadline now : Nat)
    (wakeTimedOut : Bool) (wakeCounter : Nat) (eventsAtWake : List Event) :
    Except String (Except WaitTimeoutResult Nat × List Event × Bool) :=
  if deadline < now then
    .error "Cannot wait for a previous time."
  else
    .ok (wait_for_any_until_impl key events true wakeTimedOut wakeCounter eventsAtWake)

/-- `wait_for_any` (`src/generic.rs:155`): untimed variant; the `.unwrap()`
of an `Err` is `none` (it cannot occur, as the untimed loop only exits on a
counter change). -/
def wait_for_any (key : Nat) (events : List Event)
    (wakeCounter : Nat) (eventsAtWake : List Event) :
    Option (Nat × List Event × Bool) :=
  match wait_for_any_until_impl key events false false wakeCounter eventsAtWake with
  | (.ok i, evs, b) => some (i, evs, b)
  | (.error _, _, _) => none

/-- The registration scan of `wait_for_all_until_impl`
(`src/generic.rs:257`): walk the slice in order with loop index `id` and
running counter; an already-signaled event adds `id + 1` to the counter and
is skipped, any other event receives an All-mode registration with
`id + 1`. -/
def allScanLoop (key : Nat) (id counter : Nat) (done : List Event) :
    List Event → Nat × List Event
  | [] => (counter, done)
  | e :: rest =>
    if e.signaled then
      allScanLoop key (id + 1) (counter + (id + 1)) (done ++ [e]) rest
    else
      allScanLoop key (id + 1) counter (done ++ [insertReg e key ⟨id + 1, .All⟩]) rest

/-- The scan of `wait_for_all_until_impl`, started at index 0 with counter
0 and an empty prefix. -/
def allScan (key : Nat) (events : List Event) : Nat × List Event :=
  allScanLoop key 0 0 [] events

/-- `wait_for_all_until_impl` (`src/generic.rs:244`).  The completion
target `from_all` is `n * (n + 1) / 2`; the counter starts at 0 and is
filled by the scan; if it already equals the target the wait loop never
blocks, otherwise the call blocks until the counter equals the target or
the deadline elapses (`wakeTimedOut`, with `eventsAtWake` the slice state
at wake-up).  Every event is then deregistered unconditionally. -/
def wait_for_all_until_impl (key : Nat) (events : List Event)
    (with_timeout wakeTimedOut : Bool) (eventsAtWake : List Event) :
    WaitTimeoutResult × List Event × Bool :=
  let from_all := events.length * (events.length + 1) / 2
  match allScan key events with
  | (counter, scanned) =>
    if counter = from_all then
      (⟨false⟩, deregisterAll key scanned, false)
    else
      let tout := if with_timeout then wakeTimedOut else false
      (⟨tout⟩, deregisterAll key eventsAtWake, true)

/-- `wait_for_all_with` (`src/generic.rs:220`): panic (`.error`) when the
duration exceeds the chrono-representable range, then delegate. -/
def wait_for_all_with (key : Nat) (events : List Event) (timeout now : Nat)
    (wakeTimedOut : Bool) (eventsAtWake : List Event) :
    Except String (WaitTimeoutResult × List Event × Bool) :=
  if MAX_CHRONO_MS < timeout then
    .error "Time period too large."
  else
    .ok (wait_for_all_until_impl key events true wakeTimedOut eventsAtWake)

/-- `wait_for_all_until` (`src/generic.rs:231`): panic (`.error`) when the
deadline is already in the past, then delegate. -/
def wait_for_all_until (key : Nat) (events : List Event) (deadline now : Nat)
    (wakeTimedOut : Bool) (eventsAtWake : List Event) :
    Except String (WaitTimeoutResult × List Event × Bool) :=
  if deadline < now then
    .error "Cannot wait for a previous time."
  else
    .ok (wait_for_all_until_impl key events true wakeTimedOut eventsAtWake)

/-- `wait_for_all` (`src/generic.rs:240`): untimed variant; the Rust
function discards the `WaitTimeoutResult`, so only the slice state and the
blocked flag remain observable. -/
def wait_for_all (key : Nat) (events : List Event)
    (eventsAtWake : List Event) : List Event × Bool :=
  (wait_for_all_until_impl key events false false eventsAtWake).2

/-- Specification-side description of the state produced by the Any-mode
scan when no event is signaled: every event receives an Any-mode
registration carrying its slot index. -/
def regAllAny (key : Nat) (id : Nat) : List Event → List Event
  | [] => []
  | e :: rest => insertReg e key ⟨id, .Any⟩ :: regAllAny key (id + 1) rest

/-- Specification-side description of the state produced by the All-mode
scan: already-signaled events are untouched, every other event receives an
All-mode registration carrying its slot index plus one. -/
def allRegister (key : Nat) (id : Nat) : List Event → List Event
  | [] => []
  | e :: rest =>
    (if e.signaled then e else insertReg e key ⟨id + 1, .All⟩) :: allRegister key (id + 1) rest

/-- Specification-side description of the counter produced by the All-mode
scan: each already-signaled event contributes its slot index plus one. -/
def preSigSum (id : Nat) : List Event → Nat
  | [] => 0
  | e :: rest => (if e.signaled then id + 1 else 0) + preSigSum (id + 1) rest

/-- The triangular sum of the slot ids `1..=n`. -/
def triSum : Nat → Nat
  | 0 => 0
  | n + 1 => triSum n + (n + 1)

/-- Removing a key really removes it from the table. -/
theorem lookupReg_mapRemove (k : Nat) (m : List (Nat × RegEntry)) :
    lookupReg k (mapRemove k m) = none := by
  induction m with
  | nil => rfl
  | cons p rest ih =>
      by_cases h : p.1 = k
      · simp [mapRemove, h, ih]
      · simp [mapRemove, h, lookupReg, ih]

/-- Removing a key from an event really removes it. -/
theorem lookupReg_removeReg (k : Nat) (e : Event) :
    lookupReg k (removeReg e k).registrations = none :=
  lookupReg_mapRemove k e.registrations

/-- Inserting then removing a key absent from the table restores it. -/
theorem mapRemove_mapInsert (k : Nat) (v : RegEntry) (m : List (Nat × RegEntry))
    (h : lookupReg k m = none) : mapRemove k (mapInsert k v m) = m := by
  induction m with
  | nil => simp [mapInsert, mapRemove]
  | cons p rest ih =>
      rw [lookupReg] at h
      by_cases hp : p.1 = k
      · simp [hp] at h
      · rw [if_neg hp] at h
        simp only [mapInsert, if_neg hp, mapRemove]
        rw [ih h]

/-- Inserting then removing a key absent from an event's table restores the
event. -/
theorem removeReg_insertReg (k : Nat) (v : RegEntry) (e : Event)
    (h : lookupReg k e.registrations = none) :
    removeReg (insertReg e k v) k = e := by
  cases e with
  | mk s a r => simp [removeReg, insertReg, mapRemove_mapInsert k v r h]

/-- An inserted key is found, with the inserted value. -/
theorem lookupReg_mapInsert (k : Nat) (v : RegEntry) (m : List (Nat × RegEntry)) :
    lookupReg k (mapInsert k v m) = some v := by
  induction m with
  | nil => simp [mapInsert, lookupReg]
  | cons p rest ih =>
      by_cases hp : p.1 = k
      · simp [mapInsert, hp, lookupReg]
      · simp [mapInsert, hp, lookupReg, ih]

/-- After the final deregistration loop, no event holds the key. -/
theorem deregisterAll_no_key (k : Nat) (l : List Event) :
    ∀ e ∈ deregisterAll k l, lookupReg k e.registrations = none := by
  intro e he
  obtain ⟨d, _, rfl⟩ := List.mem_map.mp he
  exact lookupReg_removeReg k d

/-- Any-mode scan over a slice with no signaled event: every event gets an
Any-mode registration carrying its slot index, and nothing is found. -/
theorem anyScanLoop_none (key : Nat) (rest : List Event) :
    ∀ (done : List Event) (id : Nat), (∀ e ∈ rest, e.signaled = false) →
      anyScanLoop key id done rest = (done ++ regAllAny key id rest, none) := by
  induction rest with
  | nil => intro done id _; simp [anyScanLoop, regAllAny]
  | cons e rest ih =>
      intro done id h
      have he : e.signaled = false := h e (List.mem_cons_self e rest)
      rw [anyScanLoop, if_neg (by simp [he]),
        ih _ _ (fun x hx => h x (List.mem_cons_of_mem _ hx))]
      simp [regAllAny, List.append_assoc]

/-- Any-mode scan when slot `j` holds the first signaled event: the call
stops at `j`, and the already-scanned prefix has its inserted registrations
removed again (restoring the events exactly, since the key is fresh). -/
theorem anyScanLoop_found (key : Nat) (rest : List Event) :
    ∀ (done : List Event) (id j : Nat) (ej : Event),
      (∀ e ∈ rest, lookupReg key e.registrations = none) →
      rest[j]? = some ej → ej.signaled = true →
      (∀ i e, i < j → rest[i]? = some e → e.signaled = false) →
      anyScanLoop key id done rest
        = (done.map (fun d => removeReg d key) ++ rest, some (id + j)) := by
  induction rest with
  | nil => intro done id j ej _ hj; simp at hj
  | cons e rest ih =>
      intro done id j ej hfresh hj hsig hmin
      cases j with
      | zero =>
          rw [List.getElem?_cons_zero] at hj
          obtain rfl : e = ej := by injection hj
          rw [anyScanLoop, if_pos (by simp [hsig])]
          simp
      | succ j =>
          have he : e.signaled = false :=
            hmin 0 e (Nat.succ_pos j) List.getElem?_cons_zero
          rw [anyScanLoop, if_neg (by simp [he]),
            ih (done ++ [insertReg e key ⟨id, .Any⟩]) (id + 1) j ej
              (fun x hx => hfresh x (List.mem_cons_of_mem _ hx))
              (by simpa using hj) hsig
              (fun i x hi hx =>
                hmin (i + 1) x (Nat.succ_lt_succ hi) (by simpa using hx))]
          have hkey : id + 1 + j = id + (j + 1) := by omega
          have hfe : lookupReg key e.registrations = none :=
            hfresh e (List.mem_cons_self e rest)
          simp [hkey, List.map_append,
            removeReg_insertReg key ⟨id, WaitFor.Any⟩ e hfe, List.append_assoc]

/-- If the Any-mode scan stops at a slot, the returned slice state holds no
registration for the (fresh) key. -/
theorem anyScanLoop_some_no_key (key : Nat) (rest : List Event) :
    ∀ (done : List Event) (id : Nat) (evs : List Event) (j : Nat),
      (∀ e ∈ rest, lookupReg key e.registrations = none) →
      anyScanLoop key id done rest = (evs, some j) →
      ∀ e ∈ evs, lookupReg key e.registrations = none := by
  induction rest with
  | nil => intro done id evs j _ heq; simp [anyScanLoop] at heq
  | cons e rest ih =>
      intro done id evs j hfresh heq
      by_cases hs : e.signaled = true
      · rw [anyScanLoop, if_pos (by simp [hs])] at heq
        obtain ⟨h1, _⟩ := Prod.mk.injEq .. ▸ heq
        subst h1
        intro x hx
        rcases List.mem_append.mp hx with hx | hx
        · obtain ⟨d, _, rfl⟩ := List.mem_map.mp hx
          exact lookupReg_removeReg key d
        · exact hfresh x hx
      · rw [anyScanLoop, if_neg (by simpa using hs)] at heq
        exact ih _ _ _ _ (fun x hx => hfresh x (List.mem_cons_of_mem _ hx)) heq

/-- Full characterisation of the All-mode scan: the counter accumulates the
slot-id-plus-one of every already-signaled event, and the slice state is as
described by `allRegister`. -/
theorem allScanLoop_spec (key : Nat) (rest : List Event) :
    ∀ (done : List Event) (id c : Nat),
      allScanLoop key id c done rest
        = (c + preSigSum id rest, done ++ allRegister key id rest) := by
  induction rest with
  | nil => intro done id c; simp [allScanLoop, preSigSum, allRegister]
  | cons e rest ih =>
      intro done id c
      by_cases hs : e.signaled = true
      · rw [allScanLoop, if_pos (by simp [hs]), ih]
        simp [preSigSum, allRegister, hs, List.append_assoc, Nat.add_assoc]
      · have hs2 : e.signaled = false := by simpa using hs
        rw [allScanLoop, if_neg (by simp [hs2]), ih]
        simp [preSigSum, allRegister, hs2, List.append_assoc]

/-- The All-mode scan started as in the source. -/
theorem allScan_spec (key : Nat) (events : List Event) :
    allScan key events = (preSigSum 0 events, allRegister key 0 events) := by
  have h := allScanLoop_spec key events [] 0 0
  simpa [allScan] using h

/-- Twice the triangular sum. -/
theorem triSum_double (n : Nat) : 2 * triSum n = n * (n + 1) := by
  induction n with
  | zero => rfl
  | succ n ih =>
      rw [triSum, Nat.mul_add, ih]
      ring

/-- The source's completion target `n * (n + 1) / 2` is the sum of the slot
ids `1..=n`. -/
theorem target_eq_triSum (n : Nat) : n * (n + 1) / 2 = triSum n := by
  rw [← triSum_double n]
  exact Nat.mul_div_cancel_left _ (by norm_num)

/-- Element description of `regAllAny`: slot `i` is the original event with
an Any-mode registration carrying id `id + i`. -/
theorem regAllAny_getElem (key : Nat) (rest : List Event) :
    ∀ (id i : Nat) (ev : Event), rest[i]? = some ev →
      (regAllAny key id rest)[i]? = some (insertReg ev key ⟨id + i, .Any⟩) := by
  induction rest with
  | nil => intro id i ev h; simp at h
  | cons e rest ih =>
      intro id i ev h
      cases i with
      | zero =>
          rw [List.getElem?_cons_zero] at h
          obtain rfl : e = ev := by injection h
          simp [regAllAny]
      | succ i =>
          rw [List.getElem?_cons_succ] at h
          have := ih (id + 1) i ev h
          have hkey : id + 1 + i = id + (i + 1) := by omega
          rw [hkey] at this
          simpa [regAllAny] using this

/-- Element description of `allRegister`: slot `i` is the original event,
untouched when already signaled, otherwise with an All-mode registration
carrying id `id + i + 1`. -/
theorem allRegister_getElem (key : Nat) (rest : List Event) :
    ∀ (id i : Nat) (ev : Event), rest[i]? = some ev →
      (allRegister key id rest)[i]?
        = some (if ev.signaled then ev else insertReg ev key ⟨id + i + 1, .All⟩) := by
  induction rest with
  | nil => intro id i ev h; simp at h
  | cons e rest ih =>
      intro id i ev h
      cases i with
      | zero =>
          rw [List.getElem?_cons_zero] at h
          obtain rfl : e = ev := by injection h
          simp [allRegister]
      | succ i =>
          rw [List.getElem?_cons_succ] at h
          have := ih (id + 1) i ev h
          have hkey : id + 1 + i + 1 = id + (i + 1) + 1 := by omega
          rw [hkey] at this
          simpa [allRegister] using this

/-- `notify` leaves the counter of an unregistered waiter unchanged. -/
theorem notifyCounters_not_mem (k : Nat) (regs : List (Nat × RegEntry)) :
    ∀ cs : Nat → Nat, k ∉ regs.map Prod.fst → notifyCounters regs cs k = cs k := by
  induction regs with
  | nil => intro cs _; rfl
  | cons p rest ih =>
      intro cs h
      simp only [List.map_cons, List.mem_cons, not_or] at h
      rw [notifyCounters, ih _ h.2]
      simp [h.1]

/-- `notify` updates the counter of each registered waiter according to its
registration kind: overwritten with `id` for Any mode, increased by `id`
for All mode. -/
theorem notifyCounters_mem (k : Nat) (v : RegEntry) (regs : List (Nat × RegEntry)) :
    ∀ cs : Nat → Nat, (regs.map Prod.fst).Nodup → (k, v) ∈ regs →
      notifyCounters regs cs k
        = (match v.kind with | .Any => v.id | .All => cs k + v.id) := by
  induction regs with
  | nil => intro cs _ hmem; exact absurd hmem (List.not_mem_nil _)
  | cons p rest ih =>
      intro cs hnod hmem
      simp only [List.map_cons, List.nodup_cons] at hnod
      rcases List.mem_cons.mp hmem with heq | hmem2
      · obtain rfl : p = (k, v) := heq.symm
        rw [notifyCounters, notifyCounters_not_mem k rest _ hnod.1]
        simp
      · have hk : k ∈ rest.map Prod.fst :=
          List.mem_map.mpr ⟨(k, v), hmem2, rfl⟩
        have hne : k ≠ p.1 := fun h => hnod.1 (h ▸ hk)
        rw [notifyCounters, ih _ hnod.2 hmem2]
        cases v.kind <;> simp [hne]

/-- C1: if some event of the slice is already signaled at scan time,
`wait_for_any_until_impl` (hence `wait_for_any` and its timed/deadline
variants under valid bounds) returns the lowest signaled index immediately
— without blocking — and the slice is returned exactly as it was: the call
removed precisely the registrations it had inserted for the indices
scanned before the found one. -/
theorem wait_for_any_presignaled_returns_lowest (key : Nat) (events : List Event)
    (j : Nat) (ej : Event)
    (hfresh : ∀ e ∈ events, lookupReg key e.registrations = none)
    (hj : events[j]? = some ej) (hsig : ej.signaled = true)
    (hmin : ∀ i e, i < j → events[i]? = some e → e.signaled = false) :
    (∀ wt wto wc evw,
        wait_for_any_until_impl key events wt wto wc evw = (.ok j, events, false))
    ∧ (∀ wc evw, wait_for_any key events wc evw = some (j, events, false))
    ∧ (∀ timeout now wto wc evw, ¬ MAX_CHRONO_MS < timeout →
        wait_for_any_with key events timeout now wto wc evw
          = .ok (.ok j, events, false))
    ∧ (∀ deadline now wto wc evw, ¬ deadline < now →
        wait_for_any_until key events deadline now wto wc evw
          = .ok (.ok j, events, false)) := by
  have hscan : anyScan key events = (events, some j) := by
    have h := anyScanLoop_found key events [] 0 j ej hfresh hj hsig hmin
    simpa [anyScan] using h
  refine ⟨?_, ?_, ?_, ?_⟩
  · intro wt wto wc evw
    simp [wait_for_any_until_impl, hscan]
  · intro wc evw
    simp [wait_for_any, wait_for_any_until_impl, hscan]
  · intro timeout now wto wc evw ht
    simp [wait_for_any_with, ht, wait_for_any_until_impl, hscan]
  · intro deadline now wto wc evw hdl
    simp [wait_for_any_until, hdl, wait_for_any_until_impl, hscan]

/-- Witness for C1 at a concrete pre-signaled slice. -/
theorem wait_for_any_presignaled_returns_lowest_witness :
    wait_for_any_until_impl 0 [⟨true, false, []⟩] false false 0 []
      = (.ok 0, [⟨true, false, []⟩], false) :=
  (wait_for_any_presignaled_returns_lowest 0 [⟨true, false, []⟩] 0 ⟨true, false, []⟩
    (by decide) (by decide) (by decide)
    (fun i e hi _ => absurd hi (Nat.not_lt_zero i))).1 false false 0 []

/-- C2: in `wait_for_all_until_impl` the counter starts at 0 and the scan
leaves it at the sum of slot-id-plus-one over the already-signaled events,
registering an All-mode entry (slot id + 1) on every other event; the
completion target `n * (n + 1) / 2` is the triangular sum of the slot ids
`1..=n`; and the call blocks exactly when the scanned counter differs from
the target, in which case the timed variant reports the wake-up's
timed-out flag. -/
theorem wait_for_all_counter_and_target (key : Nat) (events : List Event) :
    allScan key events = (preSigSum 0 events, allRegister key 0 events)
    ∧ events.length * (events.length + 1) / 2 = triSum events.length
    ∧ (∀ i ev, events[i]? = some ev →
        (allRegister key 0 events)[i]?
          = some (if ev.signaled then ev else insertReg ev key ⟨i + 1, .All⟩))
    ∧ (∀ wto evw,
        ((wait_for_all_until_impl key events true wto evw).2.2 = false
            ↔ preSigSum 0 events = events.length * (events.length + 1) / 2)
        ∧ (wait_for_all_until_impl key events true wto evw).1.timed_out
            = (if preSigSum 0 events = events.length * (events.length + 1) / 2
               then false else wto)) := by
  refine ⟨allScan_spec key events, target_eq_triSum _, ?_, ?_⟩
  · intro i ev h
    have h2 := allRegister_getElem key events 0 i ev h
    simpa using h2
  · intro wto evw
    by_cases hc : preSigSum 0 events = events.length * (events.length + 1) / 2
    · constructor
      · simp [wait_for_all_until_impl, allScan_spec, hc]
      · simp [wait_for_all_until_impl, allScan_spec, hc]
    · constructor
      · simp [wait_for_all_until_impl, allScan_spec, hc]
      · simp [wait_for_all_until_impl, allScan_spec, hc]

/-- Witness for C2 at a concrete slice. -/
theorem wait_for_all_counter_and_target_witness :
    allScan 0 [⟨true, false, []⟩]
      = (preSigSum 0 [⟨true, false, []⟩], allRegister 0 0 [⟨true, false, []⟩]) :=
  (wait_for_all_counter_and_target 0 [⟨true, false, []⟩]).1

/-- C3: `notify` sets the state to signaled, leaves the registration table
itself unchanged, and for every registered waiter updates that waiter's
counter — overwriting it with the stored id for an Any-mode registration
and adding the stored id for an All-mode registration — and notifies that
waiter's condvar; moreover the Any-mode scan stores the slot id and the
All-mode scan stores the slot id plus one, so the overwritten value is the
event's slot id and the added value is slot id + 1. -/
theorem notify_updates_registered_waiters (e : Event) (cs : Nat → Nat)
    (k : Nat) (v : RegEntry)
    (hnodup : (e.registrations.map Prod.fst).Nodup)
    (hmem : (k, v) ∈ e.registrations) :
    (e.notify cs).1.signaled = true
    ∧ (e.notify cs).1.registrations = e.registrations
    ∧ (e.notify cs).2.1 k
        = (match v.kind with | .Any => v.id | .All => cs k + v.id)
    ∧ k ∈ (e.notify cs).2.2.wokenWaiters
    ∧ (∀ (key2 : Nat) (events : List Event) (i : Nat) (ev : Event),
        (∀ x ∈ events, x.signaled = false) → events[i]? = some ev →
        (anyScan key2 events).1[i]? = some (insertReg ev key2 ⟨i, .Any⟩))
    ∧ (∀ (key2 : Nat) (events : List Event) (i : Nat) (ev : Event),
        events[i]? = some ev → ev.signaled = false →
        (allScan key2 events).2[i]? = some (insertReg ev key2 ⟨i + 1, .All⟩)) := by
  refine ⟨rfl, rfl, ?_, ?_, ?_, ?_⟩
  · exact notifyCounters_mem k v e.registrations cs hnodup hmem
  · exact List.mem_map.mpr ⟨(k, v), hmem, rfl⟩
  · intro key2 events i ev hall hi
    have hscan : anyScan key2 events = (regAllAny key2 0 events, none) := by
      have h := anyScanLoop_none key2 events [] 0 hall
      simpa [anyScan] using h
    rw [hscan]
    have h2 := regAllAny_getElem key2 events 0 i ev hi
    simpa using h2
  · intro key2 events i ev hi hsf
    rw [allScan_spec]
    have h2 := allRegister_getElem key2 events 0 i ev hi
    rw [if_neg (by simp [hsf])] at h2
    simpa using h2

/-- Witness for C3 at a concrete event with one Any-mode registration. -/
theorem notify_updates_registered_waiters_witness :
    ((Event.mk false false [(5, ⟨2, WaitFor.Any⟩)]).notify (fun _ => 0)).2.1 5 = 2 :=
  (notify_updates_registered_waiters ⟨false, false, [(5, ⟨2, WaitFor.Any⟩)]⟩
    (fun _ => 0) 5 ⟨2, WaitFor.Any⟩ (by decide) (by decide)).2.2.1

/-- C4: after either group-wait implementation returns — early pre-signaled
return, successful wake-up, or timeout, with `eventsAtWake` standing for
whatever the slice looked like when a blocking call woke up — no event of
the returned slice retains a registration keyed by this call's waiter. -/
theorem group_wait_leaves_no_registration (key : Nat)
    (events evw : List Event)
    (hfresh : ∀ e ∈ events, lookupReg key e.registrations = none) :
    (∀ wt wto wc, ∀ e ∈ (wait_for_any_until_impl key events wt wto wc evw).2.1,
        lookupReg key e.registrations = none)
    ∧ (∀ wt wto, ∀ e ∈ (wait_for_all_until_impl key events wt wto evw).2.1,
        lookupReg key e.registrations = none) := by
  constructor
  · intro wt wto wc
    rcases hA : anyScan key events with ⟨evs, oid⟩
    cases oid with
    | some i =>
        have himpl : (wait_for_any_until_impl key events wt wto wc evw).2.1 = evs := by
          simp [wait_for_any_until_impl, hA]
        rw [himpl]
        exact anyScanLoop_some_no_key key events [] 0 evs i hfresh
          (by simpa [anyScan] using hA)
    | none =>
        have himpl : (wait_for_any_until_impl key events wt wto wc evw).2.1
            = deregisterAll key evw := by
          simp only [wait_for_any_until_impl, hA]
          split <;> first | rfl | (split <;> rfl)
        rw [himpl]
        exact deregisterAll_no_key key evw
  · intro wt wto
    rcases hA : allScan key events with ⟨counter, scanned⟩
    by_cases hc : counter = events.length * (events.length + 1) / 2
    · have himpl : (wait_for_all_until_impl key events wt wto evw).2.1
          = deregisterAll key scanned := by
        simp [wait_for_all_until_impl, hA, hc]
      rw [himpl]
      exact deregisterAll_no_key key scanned
    · have himpl : (wait_for_all_until_impl key events wt wto evw).2.1
          = deregisterAll key evw := by
        simp [wait_for_all_until_impl, hA, hc]
      rw [himpl]
      exact deregisterAll_no_key key evw

/-- Witness for C4: a blocked call deregisters a wake-time registration. -/
theorem group_wait_leaves_no_registration_witness :
    lookupReg 0 (Event.mk false false []).registrations = none :=
  (group_wait_leaves_no_registration 0 [⟨false, false, []⟩]
      [⟨false, false, [(0, ⟨0, WaitFor.Any⟩)]⟩] (by decide)).1
    false false 0 ⟨false, false, []⟩ (by decide)

/-- C5: `wait` on an already-signaled event returns without blocking; the
signaled state afterwards is false exactly when the event is auto-reset
(manual-reset events stay signaled), and nothing else changes. -/
theorem wait_signaled_returns_immediately (e : Event) (ws : Bool)
    (hsig : e.signaled = true) :
    e.wait ws = some (e.applyReset, false)
    ∧ (e.applyReset).signaled = (if e.auto_reset then false else true)
    ∧ (e.applyReset).registrations = e.registrations
    ∧ (e.applyReset).auto_reset = e.auto_reset := by
  refine ⟨?_, ?_, ?_, ?_⟩
  · simp [Event.wait, hsig]
  · cases ha : e.auto_reset <;> simp [Event.applyReset, ha, hsig]
  · cases ha : e.auto_reset <;> simp [Event.applyReset, ha]
  · cases ha : e.auto_reset <;> simp [Event.applyReset, ha]

/-- Witness for C5 at a concrete signaled auto-reset event. -/
theorem wait_signaled_returns_immediately_witness :
    Event.wait ⟨true, true, []⟩ false
      = some (Event.applyReset ⟨true, true, []⟩, false) :=
  (wait_signaled_returns_immediately ⟨true, true, []⟩ false rfl).1

/-- C6: a duration beyond the chrono-representable range makes `wait_for`,
`wait_for_any_with` and `wait_for_all_with` abort (`.error`) before doing
anything, and a deadline in the past does the same for `wait_until`,
`wait_for_any_until` and `wait_for_all_until`; the error carries no new
state, so no registration or state change happens, not even partially. -/
theorem timed_waits_reject_invalid_bounds (e : Event) (key : Nat)
    (events evw : List Event) (d deadline now wc : Nat) (ws wt wto : Bool)
    (hd : MAX_CHRONO_MS < d) (hp : deadline < now) :
    e.wait_for d now ws wt = .error "Time period too large."
    ∧ e.wait_until now deadline ws wt = .error "Cannot wait for a previous time."
    ∧ wait_for_any_with key events d now wto wc evw = .error "Time period too large."
    ∧ wait_for_any_until key events deadline now wto wc evw
        = .error "Cannot wait for a previous time."
    ∧ wait_for_all_with key events d now wto evw = .error "Time period too large."
    ∧ wait_for_all_until key events deadline now wto evw
        = .error "Cannot wait for a previous time." := by
  refine ⟨?_, ?_, ?_, ?_, ?_, ?_⟩ <;>
    simp [Event.wait_for, Event.wait_until, wait_for_any_with, wait_for_any_until,
      wait_for_all_with, wait_for_all_until, hd, hp]

/-- Witness for C6 at a concrete oversized duration and past deadline. -/
theorem timed_waits_reject_invalid_bounds_witness :
    Event.wait_for ⟨false, false, []⟩ (2 ^ 63) 1 false false
      = .error "Time period too large." :=
  (timed_waits_reject_invalid_bounds ⟨false, false, []⟩ 0 [] [] (2 ^ 63) 0 1 0
    false false false (by decide) (by decide)).1

/-- C7: `unnotify` only forces the signaled state to false: the reset
policy and the registration table are untouched, every waiter counter is
untouched, and no condition variable — local or registered — is
notified. -/
theorem unnotify_only_clears_signal (e : Event) (cs : Nat → Nat) :
    (e.unnotify cs).1.signaled = false
    ∧ (e.unnotify cs).1.auto_reset = e.auto_reset
    ∧ (e.unnotify cs).1.registrations = e.registrations
    ∧ (e.unnotify cs).2.1 = cs
    ∧ (e.unnotify cs).2.2.localNotified = false
    ∧ (e.unnotify cs).2.2.wokenWaiters = [] :=
  ⟨rfl, rfl, rfl, rfl, rfl, rfl⟩

/-- C8: in the portable backend, `Event::new` succeeds for every
combination of the two flags, with the given initial signaled state and an
empty registration table. -/
theorem new_always_ok (b1 b2 : Bool) :
    Event.new b1 b2
      = .ok { signaled := b1, auto_reset := b2, registrations := [] } := rfl

/-- C9: whenever `wait_until` on an auto-reset event returns (rather than
panicking), including when it returns with `timed_out = true`, the event's
signaled state is false. -/
theorem wait_until_auto_reset_clears_on_timeout (e : Event) (now deadline : Nat)
    (ws wt : Bool) (e2 : Event) (r : WaitTimeoutResult) (b : Bool)
    (hauto : e.auto_reset = true)
    (hok : e.wait_until now deadline ws wt = .ok (e2, r, b)) :
    e2.signaled = false := by
  obtain ⟨s, a, regs⟩ := e
  simp only [Event.auto_reset] at hauto
  subst hauto
  rw [Event.wait_until] at hok
  split at hok
  · exact absurd hok (by simp)
  · split at hok
    · simp only [Except.ok.injEq, Prod.mk.injEq] at hok
      obtain ⟨he, -, -⟩ := hok
      rw [← he]
      simp [Event.applyReset]
    · split at hok
      · simp only [Except.ok.injEq, Prod.mk.injEq] at hok
        obtain ⟨he, -, -⟩ := hok
        rw [← he]
        simp [Event.applyReset]
      · exact absurd hok (by simp)

/-- Witness for C9: a timed-out wait on an unsignaled auto-reset event. -/
theorem wait_until_auto_reset_clears_on_timeout_witness :
    (Event.mk false true []).signaled = false :=
  wait_until_auto_reset_clears_on_timeout ⟨false, true, []⟩ 0 1 false true
    ⟨false, true, []⟩ ⟨true⟩ true rfl rfl

/-- C10: on the empty slice the completion target `0 * (0 + 1) / 2 = 0`
already equals the initial counter 0, so `wait_for_all` returns
immediately without blocking and the timed/deadline variants return
immediately with `timed_out = false`. -/
theorem wait_for_all_empty_returns_immediately (key : Nat) (wt wto : Bool)
    (timeout deadline now : Nat)
    (ht : ¬ MAX_CHRONO_MS < timeout) (hdl : ¬ deadline < now) :
    wait_for_all_until_impl key [] wt wto [] = (⟨false⟩, [], false)
    ∧ wait_for_all key [] [] = ([], false)
    ∧ wait_for_all_with key [] timeout now wto [] = .ok (⟨false⟩, [], false)
    ∧ wait_for_all_until key [] deadline now wto [] = .ok (⟨false⟩, [], false) := by
  have himpl : ∀ b1 b2 : Bool,
      wait_for_all_until_impl key [] b1 b2 [] = (⟨false⟩, [], false) := by
    intro b1 b2
    rfl
  refine ⟨himpl wt wto, ?_, ?_, ?_⟩
  · simp [wait_for_all, himpl]
  · simp [wait_for_all_with, ht, himpl]
  · simp [wait_for_all_until, hdl, himpl]

/-- Witness for C10 on the empty slice with valid bounds. -/
theorem wait_for_all_empty_returns_immediately_witness :
    wait_for_all_until_impl 0 [] false false [] = (⟨false⟩, [], false) :=
  (wait_for_all_empty_returns_immediately 0 false false 0 0 0
    (by decide) (by decide)).1
